import Mathlib

/-!
The ping example (`examples/ping/main.go`)

A shallow embedding of the ping example program: one process that serves a
`ping` method on the channel `PingService` and, in an endless loop, calls that
method on itself every ten seconds.

The program is effectful, so it is embedded as state-passing code over a
process state `St` that records the observable events in order (log lines,
context creation and cancellation, outbound calls and their returns, sleeps),
the number of contexts created, the number of clock reads and the peer set of
every channel.  A computation either returns a value or ends the process.
-/

namespace PingExample

/-! ## Data model -/

/-- Go `error` values, identified by the text `Error()` gives. -/
structure GoError where
  text : String
deriving DecidableEq, Repr

/-- Ping is the ping request type. -/
structure Ping where
  Message : String
deriving DecidableEq, Repr

/-- Pong is the ping response type (`type Pong Ping`). -/
structure Pong where
  Message : String
deriving DecidableEq, Repr

/-- `time.Duration` counts nanoseconds. -/
abbrev Duration := Nat

/-- `time.Second`. -/
def Second : Duration := 1000000000

/-- Severity of a log line; only the levels the program uses. -/
inductive Level where
  | Info
  | Error
  | Fatal
deriving DecidableEq, Repr

/-- `tchannel.LogField`. -/
structure LogField where
  Key : String
  Value : String
deriving DecidableEq, Repr

/-- Modelled from the spec: `tchannel.ErrField` is not under `src/`; it is the
log field that carries an error, here under the key `error`. -/
def ErrField (err : GoError) : LogField :=
  { Key := "error", Value := err.text }

/-- One line handed to the logger. -/
structure LogEntry where
  level : Level
  fields : List LogField
  msg : String
deriving DecidableEq, Repr

/-- Modelled from the spec: `CallContext`, a per-call deadline and cancellation
token.  `id` tells the contexts of one process apart, `timeout` is the duration
the context was created with. -/
structure Context where
  id : Nat
  timeout : Duration
deriving DecidableEq, Repr

/-- Modelled from the spec: `Peer`, an address identifier; `id` is the index at
which the record was created in its peer set, so that two records are the same
record exactly when they are equal. -/
structure Peer where
  id : Nat
  hostPort : String
deriving DecidableEq, Repr

/-- Modelled from the spec: `PeerSet` tracks known remote endpoints by
address. -/
abbrev PeerSet := List Peer

/-- Modelled from the spec: `PeerSet.Add(address)` is not under `src/`; it is an
idempotent insert that returns the existing record if present and otherwise
creates one. -/
def PeerSet.Add (ps : PeerSet) (hostPort : String) : Peer × PeerSet :=
  match ps.find? (fun p => p.hostPort == hostPort) with
  | some p => (p, ps)
  | none =>
    let p : Peer := { id := ps.length, hostPort := hostPort }
    (p, ps ++ [p])

/-- What the process does that can be observed, in the order it happens. -/
inductive Event where
  | log (e : LogEntry)
  | newContext (ctx : Context)
  | cancel (ctx : Context)
  | call (ctx : Context) (peer : Peer) (service method : String) (arg : Ping)
  | callReturn (ctx : Context) (err : Option GoError)
  | sleep (d : Duration)
deriving DecidableEq, Repr

/-- Process state. `trace` holds the events so far, oldest first; `ctxs` counts
the contexts created; `clock` counts the reads of the wall clock; `peers` gives
the peer set of each channel, by channel name. -/
structure St where
  trace : List Event
  ctxs : Nat
  clock : Nat
  peers : String → PeerSet

/-- The state of a process that has just started. -/
def St.start : St :=
  { trace := [], ctxs := 0, clock := 0, peers := fun _ => [] }

/-- Outcome of running a piece of the program: it returns a value, or the
process has ended (`os.Exit`) and nothing after it runs. -/
inductive Res (α : Type) where
  | ret (a : α) (s : St)
  | exit (s : St)

/-- The state a run ends in. -/
def Res.state {α : Type} : Res α → St
  | .ret _ s => s
  | .exit s => s

/-- Whether a run ended the process. -/
def Res.exited {α : Type} : Res α → Bool
  | .ret _ _ => false
  | .exit _ => true

/-- A piece of the program: a function of the process state. -/
def Proc (α : Type) : Type := St → Res α

/-- Sequencing: when the first part ends the process, the second never runs. -/
def Proc.bind {α β : Type} (m : Proc α) (f : α → Proc β) : Proc β :=
  fun s =>
    match m s with
    | .ret a s1 => f a s1
    | .exit s1 => .exit s1

instance : Monad Proc where
  pure a := fun s => .ret a s
  bind := Proc.bind

/-- Record one event. -/
def emit (e : Event) : Proc Unit :=
  fun s => .ret () { s with trace := s.trace ++ [e] }

/-- Go `defer`: `d` runs when `body` returns; a process that has ended runs no
deferred call. -/
def withDefer {α : Type} (d : Proc Unit) (body : Proc α) : Proc α :=
  fun s =>
    match body s with
    | .ret a s1 =>
      match d s1 with
      | .ret _ s2 => .ret a s2
      | .exit s2 => .exit s2
    | .exit s1 => .exit s1

/-! ## The logger (`tchannel.SimpleLogger`) -/

/-- A logger with the fields attached by `WithFields`. -/
structure Logger where
  fields : List LogField

/-- `var log = tchannel.SimpleLogger`. -/
def log : Logger := { fields := [] }

/-- `WithFields` returns a logger that adds the fields to every line. -/
def Logger.WithFields (l : Logger) (fs : List LogField) : Logger :=
  { fields := l.fields ++ fs }

/-- Modelled from the spec: the logger is not under `src/`.  A line is written to
the sink; a fatal report makes the process exit, the other levels do not. -/
def Logger.write (l : Logger) (level : Level) (msg : String) : Proc Unit :=
  fun s =>
    let s1 : St := { s with trace := s.trace ++ [Event.log { level := level, fields := l.fields, msg := msg }] }
    match level with
    | .Fatal => .exit s1
    | _ => .ret () s1

/-- `Infof`, with the format already applied to its arguments. -/
def Logger.Infof (l : Logger) (msg : String) : Proc Unit := l.write .Info msg

/-- `Error`. -/
def Logger.Error (l : Logger) (msg : String) : Proc Unit := l.write .Error msg

/-- `Fatal`. -/
def Logger.Fatal (l : Logger) (msg : String) : Proc Unit := l.write .Fatal msg

/-! ## Collaborators -/

/-- A JSON handler: `func(ctx json.Context, arg *Ping) (*Pong, error)`. -/
abbrev Handler := Context → Ping → Proc (Option Pong × Option GoError)

/-- What `json.Register` installs on a channel: the handlers by method name and
the error observer. -/
structure Registration where
  handlers : List (String × Handler)
  onError : Context → GoError → Proc Unit

/-- A channel: its service name, the address `PeerInfo().HostPort` reports and
what has been registered on it. -/
structure Channel where
  serviceName : String
  hostPort : String
  registered : Option Registration

/-- The part of the world the program does not control: whether creating a
channel fails, what listening on an address gives (the bound address or an
error) and what the wall clock reads, formatted as `time.UnixDate`, at each
read. -/
structure Env where
  newChannel : String → Option GoError
  listen : String → Except GoError String
  now : Nat → String

/-- What carries a call to its peer and back: given the context, the peer, the
service, the method, the request and the initial value of the response
variable, it yields the final value of the response variable and the error. -/
abbrev Transport := Context → Peer → String → String → Ping → Pong → Proc (Pong × Option GoError)

/-- A transport described by the outcome of each call alone: the response
variable after the call and the error, with no event of its own. -/
def Transport.oracle (f : Context → Peer → String → String → Ping → Pong → Pong × Option GoError) :
    Transport :=
  fun ctx peer service method arg resp => pure (f ctx peer service method arg resp)

/-- Modelled from the spec: faithful delivery to a serving channel of the same
process.  A call to the channel's service is dispatched to the handler
registered under the method name and its result is returned to the caller; an
error of the handler is passed once to the error observer and reported to the
caller; an unregistered method or another service is reported to the caller as
an error. -/
def Transport.loopback (ch : Channel) : Transport :=
  fun ctx _peer service method arg resp =>
    match ch.registered with
    | none => pure (resp, some { text := "no handler registered" })
    | some reg =>
      if service = ch.serviceName then
        match reg.handlers.lookup method with
        | none => pure (resp, some { text := "method not found" })
        | some h => do
          let r ← h ctx arg
          match r.2 with
          | some e => do
            reg.onError ctx e
            pure (resp, some e)
          | none => pure (r.1.getD resp, none)
      else pure (resp, some { text := "unknown service" })

/-- Modelled from the spec: `tchannel.NewChannel`, which either fails or gives a
channel with the service name and nothing registered. -/
def NewChannel (env : Env) (serviceName : String) : Proc (Channel × Option GoError) :=
  pure ({ serviceName := serviceName, hostPort := "", registered := none }, env.newChannel serviceName)

/-- Modelled from the spec: `json.Register` installs the handlers and the error
observer on the channel. -/
def Register (ch : Channel) (handlers : List (String × Handler))
    (onError : Context → GoError → Proc Unit) : Channel :=
  { ch with registered := some { handlers := handlers, onError := onError } }

/-- Modelled from the spec: `ListenAndServe` binds the address and serves in the
background; it gives the channel, listening on the bound address, or the
error. -/
def ListenAndServe (env : Env) (s : Channel) (hostPort : String) : Proc (Channel × Option GoError) :=
  match env.listen hostPort with
  | .ok bound => pure ({ s with hostPort := bound }, none)
  | .error e => pure (s, some e)

/-- Modelled from the spec: `json.NewContext(timeout)` creates a fresh context
with that timeout; its cancel function is `cancel` below. -/
def NewContext (timeout : Duration) : Proc Context :=
  fun s =>
    let ctx : Context := { id := s.ctxs, timeout := timeout }
    .ret ctx { s with trace := s.trace ++ [Event.newContext ctx], ctxs := s.ctxs + 1 }

/-- The cancel function `json.NewContext` returns for `ctx`. -/
def cancel (ctx : Context) : Proc Unit := emit (.cancel ctx)

/-- `c.Peers().Add(hostPort)` on channel `c`. -/
def PeersAdd (c : Channel) (hostPort : String) : Proc Peer :=
  fun s =>
    let r := PeerSet.Add (s.peers c.serviceName) hostPort
    .ret r.1 { s with peers := Function.update s.peers c.serviceName r.2 }

/-- `time.Now().Format(time.UnixDate)`. -/
def timeNow (env : Env) : Proc String :=
  fun s => .ret (env.now s.clock) { s with clock := s.clock + 1 }

/-- `time.Sleep(d)`. -/
def Sleep (d : Duration) : Proc Unit := emit (.sleep d)

/-- `json.CallPeer(ctx, peer, service, method, arg, resp)`: one request/response
exchange over the transport. -/
def CallPeer (t : Transport) (ctx : Context) (peer : Peer) (service method : String)
    (arg : Ping) (resp : Pong) : Proc (Pong × Option GoError) := do
  emit (.call ctx peer service method arg)
  let r ← t ctx peer service method arg resp
  emit (.callReturn ctx r.2)
  pure r

/-! ## The program -/

/-- The handler of `ping`. -/
def pingHandler (_ctx : Context) (ping : Ping) : Proc (Option Pong × Option GoError) := do
  log.Infof ("recv ping: '" ++ ping.Message ++ "', sending pong")
  pure (some { Message := ping.Message }, none)

/-- The error observer. -/
def onError (_ctx : Context) (err : GoError) : Proc Unit :=
  (log.WithFields [ErrField err]).Fatal "onError handler triggered."

/-- Announce the address and listen on it; the channel after the call is
returned, since Go updates it in place. -/
def listenAndHandle (env : Env) (s : Channel) (hostPort : String) : Proc Channel := do
  log.Infof ("Service " ++ hostPort)
  let r ← ListenAndServe env s hostPort
  match r.2 with
  | some err =>
    (log.WithFields [{ Key := "hostPort", Value := hostPort }, ErrField err]).Fatal "Couldn't listen."
    pure r.1
  | none => pure r.1

/-- One ping: make a call to ourselves, with a timeout of 10s. -/
def pinger (env : Env) (t : Transport) (ch client : Channel) : Proc Unit := do
  let ctx ← NewContext (Second * 10)
  withDefer (cancel ctx) do
    let peer ← PeersAdd client ch.hostPort
    let pong : Pong := { Message := "" }
    let now ← timeNow env
    log.Infof ("send ping: '" ++ now ++ "'")
    let r ← CallPeer t ctx peer "PingService" "ping" { Message := now } pong
    match r.2 with
    | some err => (log.WithFields [ErrField err]).Error "json.Call failed."
    | none => pure ()
    log.Infof ("recv pong: '" ++ r.1.Message ++ "'")

/-- The first `n` rounds of the endless `for` loop of `main`. -/
def pingLoop (env : Env) (t : Transport) (ch client : Channel) : Nat → Proc Unit
  | 0 => pure ()
  | n + 1 => do
    pinger env t ch client
    Sleep (10 * Second)
    pingLoop env t ch client n

/-- The startup of `main`: everything before the loop; it gives the serving
channel and the client channel. -/
def startup (env : Env) : Proc (Channel × Channel) := do
  let r ← NewChannel env "PingService"
  match r.2 with
  | some err => (log.WithFields [ErrField err]).Fatal "Couldn't create new channel."
  | none => pure ()
  let ch := Register r.1 [("ping", pingHandler)] onError
  let ch ← listenAndHandle env ch "127.0.0.1:10500"
  let c ← NewChannel env "ping-client"
  match c.2 with
  | some err => (log.WithFields [ErrField err]).Fatal "Couldn't create new client channel."
  | none => pure ()
  pure (ch, c.1)

/-- The program `main`, with its loop cut after `n` rounds. -/
def main (env : Env) (t : Transport) (n : Nat) : Proc Unit := do
  let cs ← startup env
  pingLoop env t cs.1 cs.2 n

/-! ## Observations on runs -/

/-- The events a run added to the trace of the state it started from. -/
def eventsSince {α : Type} (s : St) (r : Res α) : List Event :=
  r.state.trace.drop s.trace.length

/-- The log lines among some events, in order. -/
def logsOf (evs : List Event) : List LogEntry :=
  evs.filterMap fun e =>
    match e with
    | .log l => some l
    | _ => none

/-- An outbound call is issued. -/
def Event.isCall : Event → Bool
  | .call _ _ _ _ _ => true
  | _ => false

/-- An outbound call returns. -/
def Event.isReturn : Event → Bool
  | .callReturn _ _ => true
  | _ => false

/-- The process sleeps. -/
def Event.isSleep : Event → Bool
  | .sleep _ => true
  | _ => false

/-- A context is cancelled. -/
def Event.isCancel : Event → Bool
  | .cancel _ => true
  | _ => false

/-- A context is created. -/
def Event.isNewContext : Event → Bool
  | .newContext _ => true
  | _ => false

/-- A log line whose text starts with `recv pong`. -/
def isRecvPong (e : Event) : Bool :=
  match e with
  | .log l => "recv pong".data.isPrefixOf l.msg.data
  | _ => false

/-- The outcome of each call, for `Transport.oracle`. -/
abbrev Oracle := Context → Peer → String → String → Ping → Pong → Pong × Option GoError

/-- The context `pinger` creates when it starts in state `s`. -/
def pingerCtx (s : St) : Context :=
  { id := s.ctxs, timeout := Second * 10 }

/-- The peer `pinger` resolves when it starts in state `s`. -/
def pingerPeer (ch client : Channel) (s : St) : Peer :=
  (PeerSet.Add (s.peers client.serviceName) ch.hostPort).1

/-- The outcome the oracle gives to the call `pinger` makes when it starts in
state `s`. -/
def pingerOutcome (env : Env) (f : Oracle) (ch client : Channel) (s : St) : Pong × Option GoError :=
  f (pingerCtx s) (pingerPeer ch client s) "PingService" "ping"
    { Message := env.now s.clock } { Message := "" }

/-- The line `pinger` logs for the error of its call, if any. -/
def errorLog (err : Option GoError) : List Event :=
  match err with
  | some e => [Event.log { level := .Error, fields := [ErrField e], msg := "json.Call failed." }]
  | none => []

/-- The events of one run of `pinger` from state `s` over an oracle. -/
def pingerEvents (env : Env) (f : Oracle) (ch client : Channel) (s : St) : List Event :=
  [ Event.newContext (pingerCtx s),
    Event.log { level := .Info, fields := [], msg := "send ping: '" ++ env.now s.clock ++ "'" },
    Event.call (pingerCtx s) (pingerPeer ch client s) "PingService" "ping"
      { Message := env.now s.clock },
    Event.callReturn (pingerCtx s) (pingerOutcome env f ch client s).2 ]
  ++ errorLog (pingerOutcome env f ch client s).2
  ++ [ Event.log { level := .Info, fields := [],
                   msg := "recv pong: '" ++ (pingerOutcome env f ch client s).1.Message ++ "'" },
       Event.cancel (pingerCtx s) ]

/-- The state one run of `pinger` from state `s` over an oracle ends in. -/
def pingerState (env : Env) (f : Oracle) (ch client : Channel) (s : St) : St :=
  { trace := s.trace ++ pingerEvents env f ch client s,
    ctxs := s.ctxs + 1,
    clock := s.clock + 1,
    peers := Function.update s.peers client.serviceName
      (PeerSet.Add (s.peers client.serviceName) ch.hostPort).2 }

/-- A startup step fails: creating the serving channel, listening, or creating
the client channel. -/
def startupFails (env : Env) : Bool :=
  (env.newChannel "PingService").isSome
  || (match env.listen "127.0.0.1:10500" with
      | .error _ => true
      | .ok _ => false)
  || (env.newChannel "ping-client").isSome

/-- The peer an outbound call is issued to. -/
def Event.callPeer? : Event → Option Peer
  | .call _ p _ _ _ => some p
  | _ => none

/-- The context an outbound call is issued with. -/
def Event.callCtx? : Event → Option Context
  | .call c _ _ _ _ => some c
  | _ => none

/-- The state after one round of the loop over an oracle: `pinger`, then the
sleep. -/
def roundState (env : Env) (f : Oracle) (ch client : Channel) (s : St) : St :=
  { pingerState env f ch client s with
    trace := (pingerState env f ch client s).trace ++ [Event.sleep (10 * Second)] }

/-- The events of the first `n` rounds of the loop over an oracle, from state
`s`. -/
def loopEvents (env : Env) (f : Oracle) (ch client : Channel) : Nat → St → List Event
  | 0, _ => []
  | n + 1, s =>
    pingerEvents env f ch client s
      ++ Event.sleep (10 * Second) :: loopEvents env f ch client n (roundState env f ch client s)

/-- With `k` calls in flight before `l`, at every point of `l` the calls issued
so far exceed the calls returned so far by zero or one. -/
def inFlightOk (k : Nat) (l : List Event) : Prop :=
  ∀ t, t <+: l →
    t.countP Event.isReturn ≤ t.countP Event.isCall + k
    ∧ t.countP Event.isCall + k ≤ t.countP Event.isReturn + 1

/-- The return of a call, or a sleep. -/
def Event.isReturnOrSleep (e : Event) : Bool := e.isReturn || e.isSleep

/-- The serving channel `main` has once startup succeeded with bound address
`bound`. -/
def servingChannel (bound : String) : Channel :=
  { serviceName := "PingService", hostPort := bound,
    registered := some { handlers := [("ping", pingHandler)], onError := onError } }

/-- The client channel `main` has once startup succeeded. -/
def clientChannel : Channel :=
  { serviceName := "ping-client", hostPort := "", registered := none }

/-! ## Concrete inputs -/

/-- A world in which startup succeeds and the clock reads `Mon Jan 2`. -/
def demoEnv : Env :=
  { newChannel := fun _ => none, listen := fun h => .ok h, now := fun _ => "Mon Jan 2" }

/-- A world in which the address is taken. -/
def busyEnv : Env :=
  { newChannel := fun _ => none, listen := fun _ => .error { text := "address in use" },
    now := fun _ => "Mon Jan 2" }

/-- Every call times out and leaves the response variable as it was. -/
def timeoutOracle : Oracle :=
  fun _ _ _ _ _ resp => (resp, some { text := "timeout" })

/-- Every call is answered with the message it carried. -/
def echoOracle : Oracle :=
  fun _ _ _ _ arg _ => ({ Message := arg.Message }, none)

/-- The serving channel of the examples. -/
def demoServer : Channel :=
  { serviceName := "PingService", hostPort := "127.0.0.1:10500", registered := none }

/-- The client channel of the examples. -/
def demoClient : Channel :=
  { serviceName := "ping-client", hostPort := "", registered := none }

/-! ## Lemmas -/

theorem pinger_oracle (env : Env) (f : Oracle) (ch client : Channel) (s : St) :
    pinger env (Transport.oracle f) ch client s = .ret () (pingerState env f ch client s) := by
  cases h : (pingerOutcome env f ch client s).2 with
  | none =>
    simp only [pingerOutcome, pingerCtx, pingerPeer] at h
    simp [pinger, pingerState, pingerEvents, pingerOutcome, pingerCtx, pingerPeer, errorLog, h,
      bind, Proc.bind, pure, NewContext, withDefer, PeersAdd, timeNow, Logger.Infof, Logger.write,
      CallPeer, emit, Transport.oracle, cancel, log]
  | some e =>
    simp only [pingerOutcome, pingerCtx, pingerPeer] at h
    simp [pinger, pingerState, pingerEvents, pingerOutcome, pingerCtx, pingerPeer, errorLog, h,
      bind, Proc.bind, pure, NewContext, withDefer, PeersAdd, timeNow, Logger.Infof, Logger.write,
      CallPeer, emit, Transport.oracle, cancel, log, Logger.Error, Logger.WithFields]

theorem eventsSince_append {α : Type} (s : St) (r : Res α) (evs : List Event)
    (h : r.state.trace = s.trace ++ evs) : eventsSince s r = evs := by
  simp [eventsSince, h]

theorem eventsSince_pinger (env : Env) (f : Oracle) (ch client : Channel) (s : St) :
    eventsSince s (pinger env (Transport.oracle f) ch client s) = pingerEvents env f ch client s := by
  apply eventsSince_append
  rw [pinger_oracle]
  rfl

theorem pingLoop_succ (env : Env) (f : Oracle) (ch client : Channel) (n : Nat) (s : St) :
    pingLoop env (Transport.oracle f) ch client (n + 1) s
      = pingLoop env (Transport.oracle f) ch client n
          { pingerState env f ch client s with
            trace := (pingerState env f ch client s).trace ++ [Event.sleep (10 * Second)] } := by
  show Proc.bind _ _ s = _
  simp only [Proc.bind, pinger_oracle]
  rfl

theorem pingLoop_zero (env : Env) (t : Transport) (ch client : Channel) (s : St) :
    pingLoop env t ch client 0 s = .ret () s := rfl

theorem pingLoop_round (env : Env) (f : Oracle) (ch client : Channel) (n : Nat) (s : St) :
    pingLoop env (Transport.oracle f) ch client (n + 1) s
      = pingLoop env (Transport.oracle f) ch client n (roundState env f ch client s) :=
  pingLoop_succ env f ch client n s

theorem pingLoop_oracle_returns (env : Env) (f : Oracle) (ch client : Channel) (n : Nat) :
    ∀ s, (pingLoop env (Transport.oracle f) ch client n s).exited = false := by
  induction n with
  | zero => intro s; rfl
  | succ n ih => intro s; rw [pingLoop_succ]; exact ih _

theorem pingLoop_trace (env : Env) (f : Oracle) (ch client : Channel) (n : Nat) :
    ∀ s, (pingLoop env (Transport.oracle f) ch client n s).state.trace
          = s.trace ++ loopEvents env f ch client n s := by
  induction n with
  | zero => intro s; simp [pingLoop_zero, Res.state, loopEvents]
  | succ n ih =>
    intro s
    rw [pingLoop_round, ih]
    simp [roundState, pingerState, loopEvents]

theorem eventsSince_pingLoop (env : Env) (f : Oracle) (ch client : Channel) (n : Nat) (s : St) :
    eventsSince s (pingLoop env (Transport.oracle f) ch client n s) = loopEvents env f ch client n s :=
  eventsSince_append s _ _ (pingLoop_trace env f ch client n s)

theorem callReturn_mem_pingerEvents {env : Env} {f : Oracle} {ch client : Channel} {s : St}
    {ctx : Context} {err : Option GoError}
    (h : Event.callReturn ctx err ∈ pingerEvents env f ch client s) :
    ctx = pingerCtx s ∧ (pingerOutcome env f ch client s).2 = err := by
  cases h2 : (pingerOutcome env f ch client s).2 <;>
    simp [pingerEvents, errorLog, h2] at h <;> simp [h]

theorem PeerSet.Add_nil (hp : String) :
    PeerSet.Add [] hp = ({ id := 0, hostPort := hp }, [{ id := 0, hostPort := hp }]) := rfl

theorem PeerSet.Add_single (hp : String) :
    PeerSet.Add [{ id := 0, hostPort := hp }] hp
      = ({ id := 0, hostPort := hp }, [{ id := 0, hostPort := hp }]) := by
  simp [PeerSet.Add]

theorem callPeers_pingerEvents (env : Env) (f : Oracle) (ch client : Channel) (s : St) :
    (pingerEvents env f ch client s).filterMap Event.callPeer? = [pingerPeer ch client s] := by
  cases h : (pingerOutcome env f ch client s).2 <;>
    simp [pingerEvents, h, errorLog, Event.callPeer?]

theorem roundState_peers (env : Env) (f : Oracle) (ch client : Channel) (s : St) :
    (roundState env f ch client s).peers client.serviceName
      = (PeerSet.Add (s.peers client.serviceName) ch.hostPort).2 := by
  simp [roundState, pingerState]

theorem pingLoop_peers_steady (env : Env) (f : Oracle) (ch client : Channel) (n : Nat) :
    ∀ s, s.peers client.serviceName = [{ id := 0, hostPort := ch.hostPort }] →
      (pingLoop env (Transport.oracle f) ch client n s).state.peers client.serviceName
          = [{ id := 0, hostPort := ch.hostPort }]
      ∧ (loopEvents env f ch client n s).filterMap Event.callPeer?
          = List.replicate n { id := 0, hostPort := ch.hostPort } := by
  induction n with
  | zero => intro s h; exact ⟨h, rfl⟩
  | succ n ih =>
    intro s h
    have h1 : (roundState env f ch client s).peers client.serviceName
        = [{ id := 0, hostPort := ch.hostPort }] := by
      rw [roundState_peers, h, PeerSet.Add_single]
    obtain ⟨ihp, ihc⟩ := ih _ h1
    refine ⟨by rw [pingLoop_round]; exact ihp, ?_⟩
    simp only [loopEvents, List.filterMap_append, List.filterMap_cons, callPeers_pingerEvents,
      Event.callPeer?, ihc, pingerPeer, h, PeerSet.Add_single, List.replicate_succ]
    rfl

theorem inFlightOk_nil (k : Nat) (hk : k ≤ 1) : inFlightOk k [] := by
  intro t ht
  have : t = [] := List.prefix_nil.mp ht
  subst this
  simp; omega

theorem inFlightOk_cons_other {k : Nat} {e : Event} {l : List Event} (hk : k ≤ 1)
    (hc : e.isCall = false) (hr : e.isReturn = false) (h : inFlightOk k l) :
    inFlightOk k (e :: l) := by
  intro t ht
  rcases List.prefix_cons_iff.mp ht with rfl | ⟨t1, rfl, h1⟩
  · simp; omega
  · have := h t1 h1
    simp [List.countP_cons, hc, hr]
    omega

theorem inFlightOk_cons_call {e : Event} {l : List Event}
    (hc : e.isCall = true) (hr : e.isReturn = false) (h : inFlightOk 1 l) :
    inFlightOk 0 (e :: l) := by
  intro t ht
  rcases List.prefix_cons_iff.mp ht with rfl | ⟨t1, rfl, h1⟩
  · simp
  · have := h t1 h1
    simp [List.countP_cons, hc, hr]
    omega

theorem inFlightOk_cons_return {e : Event} {l : List Event}
    (hc : e.isCall = false) (hr : e.isReturn = true) (h : inFlightOk 0 l) :
    inFlightOk 1 (e :: l) := by
  intro t ht
  rcases List.prefix_cons_iff.mp ht with rfl | ⟨t1, rfl, h1⟩
  · simp
  · have := h t1 h1
    simp [List.countP_cons, hc, hr]
    omega

theorem inFlightOk_loopEvents (env : Env) (f : Oracle) (ch client : Channel) (n : Nat) :
    ∀ s, inFlightOk 0 (loopEvents env f ch client n s) := by
  induction n with
  | zero => intro s; exact inFlightOk_nil 0 (by omega)
  | succ n ih =>
    intro s
    have hrest := ih (roundState env f ch client s)
    cases h : (pingerOutcome env f ch client s).2 with
    | none =>
      simp only [loopEvents, pingerEvents, h, errorLog, List.cons_append, List.nil_append,
        List.append_nil]
      exact inFlightOk_cons_other (by omega) rfl rfl <|
        inFlightOk_cons_other (by omega) rfl rfl <|
        inFlightOk_cons_call rfl rfl <|
        inFlightOk_cons_return rfl rfl <|
        inFlightOk_cons_other (by omega) rfl rfl <|
        inFlightOk_cons_other (by omega) rfl rfl <|
        inFlightOk_cons_other (by omega) rfl rfl hrest
    | some e =>
      simp only [loopEvents, pingerEvents, h, errorLog, List.cons_append, List.nil_append,
        List.append_nil]
      exact inFlightOk_cons_other (by omega) rfl rfl <|
        inFlightOk_cons_other (by omega) rfl rfl <|
        inFlightOk_cons_call rfl rfl <|
        inFlightOk_cons_return rfl rfl <|
        inFlightOk_cons_other (by omega) rfl rfl <|
        inFlightOk_cons_other (by omega) rfl rfl <|
        inFlightOk_cons_other (by omega) rfl rfl <|
        inFlightOk_cons_other (by omega) rfl rfl hrest

/-- Stripping a call-free front: if `F` holds no call and `F ++ L` splits at a
call `c`, the split lies in `L`. -/
theorem strip_callFree {F L a x : List Event} {c : Event}
    (hF : ∀ e ∈ F, e.isCall = false) (hc : c.isCall = true)
    (h : F ++ L = a ++ c :: x) : ∃ a1, a = F ++ a1 ∧ L = a1 ++ c :: x := by
  induction F generalizing a with
  | nil => exact ⟨a, rfl, h⟩
  | cons p F ih =>
    cases a with
    | nil =>
      simp at h
      have := hF p (by simp)
      rw [h.1] at this
      simp [this] at hc
    | cons a0 a =>
      simp at h
      obtain ⟨a1, rfl, h2⟩ := ih (fun e he => hF e (by simp [he])) h.2
      exact ⟨a1, by simp [h.1], h2⟩

theorem loopEvents_succ_shape (env : Env) (f : Oracle) (ch client : Channel) (n : Nat) (s : St) :
    ∃ (P Q : List Event) (err : Option GoError),
      loopEvents env f ch client (n + 1) s
        = P ++ Event.call (pingerCtx s) (pingerPeer ch client s) "PingService" "ping"
                { Message := env.now s.clock }
              :: (Q ++ loopEvents env f ch client n (roundState env f ch client s))
      ∧ (∀ e ∈ P, e.isCall = false)
      ∧ (∀ e ∈ Q, e.isCall = false)
      ∧ P.filter Event.isReturnOrSleep = []
      ∧ Q.filter Event.isReturnOrSleep
          = [Event.callReturn (pingerCtx s) err, Event.sleep (10 * Second)] := by
  refine ⟨[ Event.newContext (pingerCtx s),
            Event.log { level := .Info, fields := [], msg := "send ping: '" ++ env.now s.clock ++ "'" } ],
          Event.callReturn (pingerCtx s) (pingerOutcome env f ch client s).2
            :: (errorLog (pingerOutcome env f ch client s).2
              ++ [ Event.log
                     { level := .Info, fields := [],
                       msg := "recv pong: '" ++ (pingerOutcome env f ch client s).1.Message ++ "'" },
                   Event.cancel (pingerCtx s), Event.sleep (10 * Second) ]),
          (pingerOutcome env f ch client s).2, ?_, ?_, ?_, ?_, ?_⟩
  · simp [loopEvents, pingerEvents]
  · simp [Event.isCall]
  · cases h : (pingerOutcome env f ch client s).2 <;> simp [errorLog, Event.isCall]
  · simp [Event.isReturnOrSleep, Event.isReturn, Event.isSleep]
  · cases h : (pingerOutcome env f ch client s).2 <;>
      simp [errorLog, Event.isReturnOrSleep, Event.isReturn, Event.isSleep]

theorem loopEvents_next_call (env : Env) (f : Oracle) (ch client : Channel) (n : Nat) (s : St)
    (G mid b : List Event) (c2 : Event)
    (hG : ∀ e ∈ G, e.isCall = false) (hmid : ∀ e ∈ mid, e.isCall = false)
    (hc2 : c2.isCall = true)
    (h : G ++ loopEvents env f ch client n s = mid ++ c2 :: b) :
    mid.filter Event.isReturnOrSleep = G.filter Event.isReturnOrSleep := by
  cases n with
  | zero =>
    simp only [loopEvents, List.append_nil] at h
    have := hG c2 (by rw [h]; simp)
    simp [this] at hc2
  | succ n =>
    obtain ⟨P, Q, err, hshape, hP, -, hPf, -⟩ := loopEvents_succ_shape env f ch client n s
    rw [hshape, ← List.append_assoc] at h
    have hGP : ∀ e ∈ G ++ P, e.isCall = false := by
      intro e he
      rcases List.mem_append.mp he with h1 | h1
      · exact hG e h1
      · exact hP e h1
    obtain ⟨a1, rfl, h2⟩ := strip_callFree hGP hc2 h
    cases a1 with
    | nil => simp [hPf]
    | cons a0 a1 =>
      simp at h2
      have := hmid a0 (by simp)
      rw [← h2.1] at this
      simp [Event.isCall] at this

theorem loopEvents_between_calls (env : Env) (f : Oracle) (ch client : Channel) (n : Nat) :
    ∀ (s : St) (a mid b : List Event) (ctx : Context) (p : Peer) (sv m : String) (arg : Ping)
      (c2 : Event),
      loopEvents env f ch client n s = a ++ Event.call ctx p sv m arg :: (mid ++ c2 :: b) →
      (∀ e ∈ mid, e.isCall = false) → c2.isCall = true →
      ∃ err, mid.filter Event.isReturnOrSleep
          = [Event.callReturn ctx err, Event.sleep (10 * Second)] := by
  induction n with
  | zero =>
    intro s a mid b ctx p sv m arg c2 h
    simp [loopEvents] at h
  | succ n ih =>
    intro s a mid b ctx p sv m arg c2 h hmid hc2
    obtain ⟨P, Q, err, hshape, hP, hQ, -, hQf⟩ := loopEvents_succ_shape env f ch client n s
    rw [hshape] at h
    obtain ⟨a1, rfl, h2⟩ := strip_callFree hP (c := Event.call ctx p sv m arg) rfl h
    cases a1 with
    | nil =>
      simp at h2
      obtain ⟨⟨rfl, -⟩, h3⟩ := h2
      refine ⟨err, ?_⟩
      rw [loopEvents_next_call env f ch client n _ Q mid b c2 hQ hmid hc2 h3, hQf]
    | cons a0 a1 =>
      simp at h2
      obtain ⟨a3, rfl, h4⟩ := strip_callFree hQ (c := Event.call ctx p sv m arg) rfl h2.2
      exact ih _ a3 mid b ctx p sv m arg c2 h4 hmid hc2

theorem countP_isCall_pingerEvents (env : Env) (f : Oracle) (ch client : Channel) (s : St) :
    (pingerEvents env f ch client s).countP Event.isCall = 1 := by
  cases h : (pingerOutcome env f ch client s).2 <;>
    simp [pingerEvents, h, errorLog, Event.isCall, List.countP_cons]

theorem listenAndHandle_error (env : Env) (ch : Channel) (h : String) (s : St) (e : GoError)
    (he : env.listen h = .error e) :
    listenAndHandle env ch h s
      = .exit { s with trace := s.trace ++
          [ Event.log { level := .Info, fields := [], msg := "Service " ++ h },
            Event.log { level := .Fatal, fields := [{ Key := "hostPort", Value := h }, ErrField e],
                        msg := "Couldn't listen." } ] } := by
  simp [listenAndHandle, ListenAndServe, he, bind, Proc.bind, pure, Logger.Infof, Logger.Fatal,
    Logger.write, Logger.WithFields, log]

theorem listenAndHandle_ok (env : Env) (ch : Channel) (h : String) (s : St) (b : String)
    (hb : env.listen h = .ok b) :
    listenAndHandle env ch h s
      = .ret { ch with hostPort := b }
          { s with trace := s.trace ++
              [ Event.log { level := .Info, fields := [], msg := "Service " ++ h } ] } := by
  simp [listenAndHandle, ListenAndServe, hb, bind, Proc.bind, pure, Logger.Infof,
    Logger.write, log]

theorem startup_newChannel_error (env : Env) (s : St) (e : GoError)
    (h1 : env.newChannel "PingService" = some e) :
    startup env s
      = .exit { s with trace := s.trace ++
          [ Event.log { level := .Fatal, fields := [ErrField e],
                        msg := "Couldn't create new channel." } ] } := by
  simp [startup, NewChannel, h1, bind, Proc.bind, pure, Logger.Fatal, Logger.write,
    Logger.WithFields, log]

theorem startup_listen_error (env : Env) (s : St) (e : GoError)
    (h1 : env.newChannel "PingService" = none)
    (h2 : env.listen "127.0.0.1:10500" = .error e) :
    startup env s
      = .exit { s with trace := s.trace ++
          [ Event.log { level := .Info, fields := [], msg := "Service 127.0.0.1:10500" },
            Event.log { level := .Fatal,
                        fields := [{ Key := "hostPort", Value := "127.0.0.1:10500" }, ErrField e],
                        msg := "Couldn't listen." } ] } := by
  simp [startup, NewChannel, h1, bind, Proc.bind, pure, listenAndHandle_error _ _ _ _ _ h2]

theorem startup_client_error (env : Env) (s : St) (b : String) (e : GoError)
    (h1 : env.newChannel "PingService" = none)
    (h2 : env.listen "127.0.0.1:10500" = .ok b)
    (h3 : env.newChannel "ping-client" = some e) :
    startup env s
      = .exit { s with trace := s.trace ++
          [ Event.log { level := .Info, fields := [], msg := "Service 127.0.0.1:10500" },
            Event.log { level := .Fatal, fields := [ErrField e],
                        msg := "Couldn't create new client channel." } ] } := by
  simp [startup, NewChannel, h1, h3, bind, Proc.bind, pure, listenAndHandle_ok _ _ _ _ _ h2,
    Logger.Fatal, Logger.write, Logger.WithFields, log]

theorem startup_ok (env : Env) (s : St) (b : String)
    (h1 : env.newChannel "PingService" = none)
    (h2 : env.listen "127.0.0.1:10500" = .ok b)
    (h3 : env.newChannel "ping-client" = none) :
    startup env s
      = .ret (servingChannel b, clientChannel)
          { s with trace := s.trace ++
              [ Event.log { level := .Info, fields := [], msg := "Service 127.0.0.1:10500" } ] } := by
  simp [startup, NewChannel, h1, h3, bind, Proc.bind, pure, listenAndHandle_ok _ _ _ _ _ h2]
  exact ⟨rfl, rfl⟩

theorem startup_fails_exit (env : Env) (s : St) (h : startupFails env = true) :
    ∃ (pre : List Event) (l : LogEntry),
      l.level = .Fatal ∧ startup env s = .exit { s with trace := s.trace ++ pre ++ [Event.log l] } := by
  cases h1 : env.newChannel "PingService" with
  | some e =>
    exact ⟨[], { level := .Fatal, fields := [ErrField e], msg := "Couldn't create new channel." },
      rfl, by rw [startup_newChannel_error env s e h1]; simp⟩
  | none =>
    cases h2 : env.listen "127.0.0.1:10500" with
    | error e =>
      exact ⟨[Event.log { level := .Info, fields := [], msg := "Service 127.0.0.1:10500" }],
        { level := .Fatal, fields := [{ Key := "hostPort", Value := "127.0.0.1:10500" }, ErrField e],
          msg := "Couldn't listen." },
        rfl, by rw [startup_listen_error env s e h1 h2]; simp⟩
    | ok b =>
      cases h3 : env.newChannel "ping-client" with
      | some e =>
        exact ⟨[Event.log { level := .Info, fields := [], msg := "Service 127.0.0.1:10500" }],
          { level := .Fatal, fields := [ErrField e], msg := "Couldn't create new client channel." },
          rfl, by rw [startup_client_error env s b e h1 h2 h3]; simp⟩
      | none =>
        simp [startupFails, h1, h2, h3] at h

theorem startup_succeeds (env : Env) (s : St) (h : startupFails env = false) :
    ∃ b, env.listen "127.0.0.1:10500" = .ok b ∧
      startup env s
        = .ret (servingChannel b, clientChannel)
            { s with trace := s.trace ++
                [ Event.log { level := .Info, fields := [], msg := "Service 127.0.0.1:10500" } ] } := by
  cases h1 : env.newChannel "PingService" with
  | some e => simp [startupFails, h1] at h
  | none =>
    cases h2 : env.listen "127.0.0.1:10500" with
    | error e => simp [startupFails, h1, h2] at h
    | ok b =>
      cases h3 : env.newChannel "ping-client" with
      | some e => simp [startupFails, h1, h2, h3] at h
      | none => exact ⟨b, rfl, startup_ok env s b h1 h2 h3⟩

theorem startup_ret_inv (env : Env) (s s0 : St) (ch client : Channel)
    (h : startup env s = .ret (ch, client) s0) :
    ∃ b, ch = servingChannel b ∧ client = clientChannel := by
  cases hf : startupFails env
  case true =>
    obtain ⟨pre, l, -, he⟩ := startup_fails_exit env s hf
    rw [he] at h
    cases h
  case false =>
    obtain ⟨b, -, hb⟩ := startup_succeeds env s hf
    rw [hb] at h
    injection h with h1 h2
    injection h1 with h3 h4
    exact ⟨b, h3.symm, h4.symm⟩

theorem log_mem_loopEvents (env : Env) (f : Oracle) (ch client : Channel) (n : Nat) :
    ∀ (s : St) (l : LogEntry), Event.log l ∈ loopEvents env f ch client n s → l.level ≠ .Fatal := by
  induction n with
  | zero => intro s l h; simp [loopEvents] at h
  | succ n ih =>
    intro s l h
    simp only [loopEvents, List.mem_append, List.mem_cons] at h
    rcases h with h | h | h
    · cases h2 : (pingerOutcome env f ch client s).2 with
      | none =>
        simp [pingerEvents, errorLog, h2] at h
        rcases h with h | h <;> simp [h]
      | some e =>
        simp [pingerEvents, errorLog, h2] at h
        rcases h with h | h | h <;> simp [h]
    · cases h
    · exact ih _ l h

theorem main_oracle_fails (env : Env) (f : Oracle) (n : Nat) (s : St) (h : startupFails env = true) :
    ∃ (pre : List Event) (l : LogEntry),
      l.level = .Fatal ∧
      main env (Transport.oracle f) n s = .exit { s with trace := s.trace ++ pre ++ [Event.log l] } := by
  obtain ⟨pre, l, hl, he⟩ := startup_fails_exit env s h
  refine ⟨pre, l, hl, ?_⟩
  show Proc.bind _ _ s = _
  simp only [Proc.bind, he]

theorem main_oracle_succeeds (env : Env) (f : Oracle) (n : Nat) (s : St) (h : startupFails env = false) :
    ∃ (b : String) (s1 : St),
      s1.trace = s.trace ++ [Event.log { level := .Info, fields := [], msg := "Service 127.0.0.1:10500" }]
      ∧ main env (Transport.oracle f) n s
          = pingLoop env (Transport.oracle f) (servingChannel b) clientChannel n s1 := by
  obtain ⟨b, -, hb⟩ := startup_succeeds env s h
  refine ⟨b, { s with trace := s.trace ++
      [Event.log { level := .Info, fields := [], msg := "Service 127.0.0.1:10500" }] }, rfl, ?_⟩
  show Proc.bind _ _ s = _
  simp only [Proc.bind, hb]

theorem pinger_loopback (env : Env) (b : String) (client : Channel) (s : St) :
    pinger env (Transport.loopback (servingChannel b)) (servingChannel b) client s
      = .ret ()
          { trace := s.trace ++
              [ Event.newContext (pingerCtx s),
                Event.log { level := .Info, fields := [],
                            msg := "send ping: '" ++ env.now s.clock ++ "'" },
                Event.call (pingerCtx s) (pingerPeer (servingChannel b) client s) "PingService" "ping"
                  { Message := env.now s.clock },
                Event.log { level := .Info, fields := [],
                            msg := "recv ping: '" ++ env.now s.clock ++ "', sending pong" },
                Event.callReturn (pingerCtx s) none,
                Event.log { level := .Info, fields := [],
                            msg := "recv pong: '" ++ env.now s.clock ++ "'" },
                Event.cancel (pingerCtx s) ],
            ctxs := s.ctxs + 1,
            clock := s.clock + 1,
            peers := Function.update s.peers client.serviceName
              (PeerSet.Add (s.peers client.serviceName) b).2 } := by
  simp [pinger, servingChannel, pingerCtx, pingerPeer, Transport.loopback, pingHandler,
    bind, Proc.bind, pure, NewContext, withDefer, PeersAdd, timeNow, Logger.Infof, Logger.write,
    CallPeer, emit, cancel, log, List.lookup]

theorem callCtxs_pingerEvents (env : Env) (f : Oracle) (ch client : Channel) (s : St) :
    (pingerEvents env f ch client s).filterMap Event.callCtx? = [pingerCtx s] := by
  cases h : (pingerOutcome env f ch client s).2 <;>
    simp [pingerEvents, h, errorLog, Event.callCtx?]

theorem callCtxs_loopEvents (env : Env) (f : Oracle) (ch client : Channel) (n : Nat) :
    ∀ s, (loopEvents env f ch client n s).filterMap Event.callCtx?
          = (List.range' s.ctxs n).map (fun i => { id := i, timeout := Second * 10 }) := by
  induction n with
  | zero => intro s; rfl
  | succ n ih =>
    intro s
    simp only [loopEvents, List.filterMap_append, List.filterMap_cons, callCtxs_pingerEvents,
      Event.callCtx?, ih, List.range'_succ, List.map_cons]
    rfl

/-! ## The claims -/

/-- C1: for every request message `M`, `pingHandler` applied to a `Ping` whose
message is `M` returns (it does not end the process) a `Pong` whose message is
`M` together with a nil error, and all it does to the process state is to write
the single Info line `recv ping: 'M', sending pong`. -/
theorem pingHandler_echo (ctx : Context) (M : String) (s : St) :
    pingHandler ctx { Message := M } s
      = .ret (some { Message := M }, none)
          { s with trace := s.trace ++
              [Event.log { level := .Info, fields := [],
                           msg := "recv ping: '" ++ M ++ "', sending pong" }] } := by
  rfl

/-- C2: with faithful delivery to the serving channel that `main` set up (the
channel `startup` returns, on which `ping` is registered), for every timestamp
`T` the clock gives, one run of `pinger` returns, and its log lines are exactly
the `send ping` line, the `recv ping` line of the handler and the `recv pong`
line, in that order, all three at Info level and carrying `T`; the handler's
line lies between the issue of the call and its return, which carries no
error. -/
theorem pinger_faithful_round_trip (env : Env) (s s0 s1 : St) (ch client : Channel) (T : String)
    (hstart : startup env s = .ret (ch, client) s0) (hT : env.now s1.clock = T) :
    (pinger env (Transport.loopback ch) ch client s1).exited = false
    ∧ logsOf (eventsSince s1 (pinger env (Transport.loopback ch) ch client s1))
        = [ { level := .Info, fields := [], msg := "send ping: '" ++ T ++ "'" },
            { level := .Info, fields := [], msg := "recv ping: '" ++ T ++ "', sending pong" },
            { level := .Info, fields := [], msg := "recv pong: '" ++ T ++ "'" } ]
    ∧ ∃ (ctx : Context) (peer : Peer),
        eventsSince s1 (pinger env (Transport.loopback ch) ch client s1)
          = [ Event.newContext ctx,
              Event.log { level := .Info, fields := [], msg := "send ping: '" ++ T ++ "'" },
              Event.call ctx peer "PingService" "ping" { Message := T },
              Event.log { level := .Info, fields := [],
                          msg := "recv ping: '" ++ T ++ "', sending pong" },
              Event.callReturn ctx none,
              Event.log { level := .Info, fields := [], msg := "recv pong: '" ++ T ++ "'" },
              Event.cancel ctx ] := by
  obtain ⟨b, rfl, rfl⟩ := startup_ret_inv env s s0 ch client hstart
  subst hT
  rw [pinger_loopback]
  refine ⟨rfl, ?_, pingerCtx s1, pingerPeer (servingChannel b) clientChannel s1, ?_⟩
  · simp [eventsSince, Res.state, logsOf]
  · simp [eventsSince, Res.state]

/-- C2 at a concrete input: startup succeeds and the clock reads `Mon Jan 2`. -/
theorem pinger_faithful_round_trip_witness :
    (pinger demoEnv (Transport.loopback (servingChannel "127.0.0.1:10500"))
        (servingChannel "127.0.0.1:10500") clientChannel St.start).exited = false
    ∧ logsOf (eventsSince St.start
        (pinger demoEnv (Transport.loopback (servingChannel "127.0.0.1:10500"))
          (servingChannel "127.0.0.1:10500") clientChannel St.start))
        = [ { level := .Info, fields := [], msg := "send ping: '" ++ "Mon Jan 2" ++ "'" },
            { level := .Info, fields := [], msg := "recv ping: '" ++ "Mon Jan 2" ++ "', sending pong" },
            { level := .Info, fields := [], msg := "recv pong: '" ++ "Mon Jan 2" ++ "'" } ]
    ∧ ∃ (ctx : Context) (peer : Peer),
        eventsSince St.start
          (pinger demoEnv (Transport.loopback (servingChannel "127.0.0.1:10500"))
            (servingChannel "127.0.0.1:10500") clientChannel St.start)
          = [ Event.newContext ctx,
              Event.log { level := .Info, fields := [], msg := "send ping: '" ++ "Mon Jan 2" ++ "'" },
              Event.call ctx peer "PingService" "ping" { Message := "Mon Jan 2" },
              Event.log { level := .Info, fields := [],
                          msg := "recv ping: '" ++ "Mon Jan 2" ++ "', sending pong" },
              Event.callReturn ctx none,
              Event.log { level := .Info, fields := [], msg := "recv pong: '" ++ "Mon Jan 2" ++ "'" },
              Event.cancel ctx ] :=
  pinger_faithful_round_trip demoEnv St.start
    { St.start with trace := St.start.trace ++
        [ Event.log { level := .Info, fields := [], msg := "Service 127.0.0.1:10500" } ] }
    St.start (servingChannel "127.0.0.1:10500") clientChannel "Mon Jan 2"
    (startup_ok demoEnv St.start "127.0.0.1:10500" rfl rfl rfl) rfl

/-- C3: whatever the outcome of the outbound call, one run of `pinger` returns,
and its events are some events `pre` followed by the cancellation of a context
`ctx` as the very last event, where `pre` holds the creation of `ctx` and of no
other context (it is the context this run created), holds the return of the call
made with `ctx`, and holds no cancellation: the cancel function is invoked
exactly once, after the call has returned and right before `pinger` returns. -/
theorem pinger_cancels_once (env : Env) (f : Oracle) (ch client : Channel) (s : St) :
    ∃ (ctx : Context) (pre : List Event) (err : Option GoError),
      (pinger env (Transport.oracle f) ch client s).exited = false
      ∧ eventsSince s (pinger env (Transport.oracle f) ch client s) = pre ++ [Event.cancel ctx]
      ∧ pre.filter Event.isNewContext = [Event.newContext ctx]
      ∧ pre.filter Event.isReturn = [Event.callReturn ctx err]
      ∧ pre.filter Event.isCancel = []
      ∧ (eventsSince s (pinger env (Transport.oracle f) ch client s)).countP Event.isCancel = 1 := by
  rw [eventsSince_pinger, pinger_oracle]
  cases h : (pingerOutcome env f ch client s).2 with
  | none =>
    refine ⟨pingerCtx s, (pingerEvents env f ch client s).dropLast, none, rfl, ?_⟩
    simp [pingerEvents, h, errorLog, Event.isCancel, Event.isNewContext, Event.isReturn]
  | some e =>
    refine ⟨pingerCtx s, (pingerEvents env f ch client s).dropLast, some e, rfl, ?_⟩
    simp [pingerEvents, h, errorLog, Event.isCancel, Event.isNewContext, Event.isReturn]

/-- C4: when the outbound call of one run of `pinger` returns the error `e`,
`pinger` returns without ending the process; among its log lines the only one
above Info level is one Error line carrying `e` (none is Fatal); the loop goes
on from the state `pinger` left with the sleep of ten seconds and then its
remaining rounds; and no number of rounds ends the process. -/
theorem pinger_call_error_not_fatal (env : Env) (f : Oracle) (ch client : Channel) (s : St)
    (ctx : Context) (e : GoError)
    (h : Event.callReturn ctx (some e) ∈ eventsSince s (pinger env (Transport.oracle f) ch client s)) :
    (pinger env (Transport.oracle f) ch client s).exited = false
    ∧ (logsOf (eventsSince s (pinger env (Transport.oracle f) ch client s))).filter
        (fun l => decide (l.level ≠ Level.Info))
        = [{ level := .Error, fields := [ErrField e], msg := "json.Call failed." }]
    ∧ (∀ n, pingLoop env (Transport.oracle f) ch client (n + 1) s
        = pingLoop env (Transport.oracle f) ch client n
            { (pinger env (Transport.oracle f) ch client s).state with
              trace := (pinger env (Transport.oracle f) ch client s).state.trace
                        ++ [Event.sleep (10 * Second)] })
    ∧ (∀ n, (pingLoop env (Transport.oracle f) ch client n s).exited = false) := by
  rw [eventsSince_pinger] at h
  obtain ⟨-, h2⟩ := callReturn_mem_pingerEvents h
  refine ⟨?_, ?_, ?_, ?_⟩
  · rw [pinger_oracle]; rfl
  · rw [eventsSince_pinger]
    simp [pingerEvents, h2, errorLog, logsOf]
  · intro n
    rw [pingLoop_succ, pinger_oracle]; rfl
  · intro n
    exact pingLoop_oracle_returns env f ch client n s

/-- C4 at a concrete input: every call times out. -/
theorem pinger_call_error_not_fatal_witness :
    (pinger demoEnv (Transport.oracle timeoutOracle) demoServer demoClient St.start).exited = false
    ∧ (logsOf (eventsSince St.start
          (pinger demoEnv (Transport.oracle timeoutOracle) demoServer demoClient St.start))).filter
        (fun l => decide (l.level ≠ Level.Info))
        = [{ level := .Error, fields := [ErrField { text := "timeout" }], msg := "json.Call failed." }]
    ∧ (∀ n, pingLoop demoEnv (Transport.oracle timeoutOracle) demoServer demoClient (n + 1) St.start
        = pingLoop demoEnv (Transport.oracle timeoutOracle) demoServer demoClient n
            { (pinger demoEnv (Transport.oracle timeoutOracle) demoServer demoClient St.start).state with
              trace := (pinger demoEnv (Transport.oracle timeoutOracle) demoServer demoClient
                          St.start).state.trace ++ [Event.sleep (10 * Second)] })
    ∧ (∀ n, (pingLoop demoEnv (Transport.oracle timeoutOracle) demoServer demoClient n
              St.start).exited = false) :=
  pinger_call_error_not_fatal demoEnv timeoutOracle demoServer demoClient St.start
    { id := 0, timeout := Second * 10 } { text := "timeout" } (by decide)

/-- C5, the claim fails: invoked with the error `handler failed`, `onError` ends
the process, having written one Fatal line. -/
theorem onError_terminates :
    (onError { id := 0, timeout := Second * 10 } { text := "handler failed" } St.start).exited = true
    ∧ (onError { id := 0, timeout := Second * 10 } { text := "handler failed" } St.start).state.trace
        = [ Event.log { level := .Fatal, fields := [ErrField { text := "handler failed" }],
                        msg := "onError handler triggered." } ] := by
  exact ⟨rfl, rfl⟩

/-- C5, amended: in a run of `main` (startup, then any number of rounds of the
loop, whatever the outcomes of the calls) a Fatal line is logged exactly when a
startup step fails (creating the serving channel, listening, creating the
client channel), and the process ends exactly then; the error observer
`onError`, invoked with any error in any state, logs it in one Fatal line and
ends the process. -/
theorem fatal_only_at_startup_or_onError (env : Env) (f : Oracle) (n : Nat) (s : St) :
    ((∃ l, Event.log l ∈ eventsSince s (main env (Transport.oracle f) n s) ∧ l.level = .Fatal)
        ↔ startupFails env = true)
    ∧ ((main env (Transport.oracle f) n s).exited = startupFails env)
    ∧ (∀ (ctx : Context) (err : GoError) (s1 : St),
        onError ctx err s1
          = .exit { s1 with trace := s1.trace ++
              [ Event.log { level := .Fatal, fields := [ErrField err],
                            msg := "onError handler triggered." } ] }) := by
  refine ⟨?_, ?_, fun ctx err s1 => rfl⟩
  · cases hf : startupFails env
    case true =>
      obtain ⟨pre, l, hl, he⟩ := main_oracle_fails env f n s hf
      simp only [iff_true]
      refine ⟨l, ?_, hl⟩
      simp [eventsSince, he, Res.state, List.append_assoc]
    case false =>
      obtain ⟨b, s1, hs1, he⟩ := main_oracle_succeeds env f n s hf
      simp only [Bool.false_eq_true, iff_false]
      rintro ⟨l, hmem, hl⟩
      have htr := pingLoop_trace env f (servingChannel b) clientChannel n s1
      rw [eventsSince, he, htr, hs1] at hmem
      simp [List.append_assoc] at hmem
      rcases hmem with rfl | hmem
      · cases hl
      · exact log_mem_loopEvents env f _ _ n s1 l hmem hl
  · cases hf : startupFails env
    case true =>
      obtain ⟨pre, l, hl, he⟩ := main_oracle_fails env f n s hf
      simp [he, Res.exited]
    case false =>
      obtain ⟨b, s1, hs1, he⟩ := main_oracle_succeeds env f n s hf
      simp [he, pingLoop_oracle_returns]

/-- C6: for every address `h`, `listenAndHandle` ends the process exactly when
listening on `h` gives an error, which is exactly when `ListenAndServe` returns
a non-nil error; in that case its events are the Info line `Service h` and the
Fatal line `Couldn't listen.` with `h` and the error as fields; when listening
succeeds it returns, having emitted only the Info line `Service h`. -/
theorem listenAndHandle_fatal_iff (env : Env) (ch : Channel) (h : String) (s : St) :
    ((listenAndHandle env ch h s).exited = true ↔ ∃ e, env.listen h = .error e)
    ∧ (∀ s1, (∃ c e, ListenAndServe env ch h s1 = .ret (c, some e) s1) ↔ ∃ e, env.listen h = .error e)
    ∧ (∀ e, env.listen h = .error e →
        listenAndHandle env ch h s
          = .exit { s with trace := s.trace ++
              [ Event.log { level := .Info, fields := [], msg := "Service " ++ h },
                Event.log { level := .Fatal,
                            fields := [{ Key := "hostPort", Value := h }, ErrField e],
                            msg := "Couldn't listen." } ] })
    ∧ (∀ b, env.listen h = .ok b →
        listenAndHandle env ch h s
          = .ret { ch with hostPort := b }
              { s with trace := s.trace ++
                  [ Event.log { level := .Info, fields := [], msg := "Service " ++ h } ] }) := by
  refine ⟨?_, ?_, fun e he => listenAndHandle_error env ch h s e he,
    fun b hb => listenAndHandle_ok env ch h s b hb⟩
  · cases hl : env.listen h with
    | error e => simp [listenAndHandle_error env ch h s e hl, Res.exited]
    | ok b => simp [listenAndHandle_ok env ch h s b hl, Res.exited]
  · intro s1
    cases hl : env.listen h with
    | error e => simp [ListenAndServe, hl, pure]
    | ok b => simp [ListenAndServe, hl, pure]

/-- C6 at concrete inputs: an address in use, and a free address. -/
theorem listenAndHandle_fatal_iff_witness :
    listenAndHandle busyEnv demoServer "127.0.0.1:10500" St.start
      = .exit { St.start with trace := St.start.trace ++
          [ Event.log { level := .Info, fields := [], msg := "Service " ++ "127.0.0.1:10500" },
            Event.log { level := .Fatal,
                        fields := [{ Key := "hostPort", Value := "127.0.0.1:10500" },
                                   ErrField { text := "address in use" }],
                        msg := "Couldn't listen." } ] }
    ∧ listenAndHandle demoEnv demoServer "127.0.0.1:10500" St.start
      = .ret { demoServer with hostPort := "127.0.0.1:10500" }
          { St.start with trace := St.start.trace ++
              [ Event.log { level := .Info, fields := [], msg := "Service " ++ "127.0.0.1:10500" } ] } :=
  ⟨(listenAndHandle_fatal_iff busyEnv demoServer "127.0.0.1:10500" St.start).2.2.1
      { text := "address in use" } rfl,
   (listenAndHandle_fatal_iff demoEnv demoServer "127.0.0.1:10500" St.start).2.2.2
      "127.0.0.1:10500" rfl⟩

/-- C7: one run of `pinger` creates exactly one context, as its first event and
with a timeout of exactly ten seconds, and issues exactly one call, with that
context; over any number of rounds of the loop the contexts of the calls are
pairwise distinct (none is used twice), one per round, each with a timeout of
ten seconds. -/
theorem pinger_call_context (env : Env) (f : Oracle) (ch client : Channel) (s : St) :
    (∃ ctx : Context,
      ctx.timeout = 10 * Second
      ∧ ctx.timeout = 10000000000
      ∧ (eventsSince s (pinger env (Transport.oracle f) ch client s)).head? = some (Event.newContext ctx)
      ∧ (eventsSince s (pinger env (Transport.oracle f) ch client s)).filter Event.isNewContext
          = [Event.newContext ctx]
      ∧ ∃ (p : Peer) (a : Ping),
          (eventsSince s (pinger env (Transport.oracle f) ch client s)).filter Event.isCall
            = [Event.call ctx p "PingService" "ping" a])
    ∧ ∀ n,
        ((eventsSince s (pingLoop env (Transport.oracle f) ch client n s)).filterMap Event.callCtx?).Nodup
        ∧ ((eventsSince s (pingLoop env (Transport.oracle f) ch client n s)).filterMap
            Event.callCtx?).length = n
        ∧ ∀ c ∈ (eventsSince s (pingLoop env (Transport.oracle f) ch client n s)).filterMap
            Event.callCtx?, c.timeout = 10 * Second := by
  constructor
  · rw [eventsSince_pinger]
    refine ⟨pingerCtx s, Nat.mul_comm _ _, rfl, rfl, ?_, pingerPeer ch client s,
      { Message := env.now s.clock }, ?_⟩
    · cases h : (pingerOutcome env f ch client s).2 <;>
        simp [pingerEvents, h, errorLog, Event.isNewContext]
    · cases h : (pingerOutcome env f ch client s).2 <;>
        simp [pingerEvents, h, errorLog, Event.isCall]
  · intro n
    rw [eventsSince_pingLoop, callCtxs_loopEvents]
    refine ⟨?_, by simp, ?_⟩
    · refine List.Nodup.map ?_ (List.nodup_range' _ _)
      intro i j hij
      injection hij
    · intro c hc
      obtain ⟨i, -, rfl⟩ := List.mem_map.mp hc
      exact Nat.mul_comm _ _

/-- C8: with `PeerSet.Add` an idempotent insert keyed by address, for every
`n ≥ 1`, after `n` rounds of the loop from a state in which the peer set of the
client channel is empty, that peer set holds exactly one record, the one for the
address of the serving channel, and the loop issued `n` calls, each of them to
that record. -/
theorem pingLoop_single_peer (env : Env) (f : Oracle) (ch client : Channel) (n : Nat) (s : St)
    (hn : 1 ≤ n) (h0 : s.peers client.serviceName = []) :
    (pingLoop env (Transport.oracle f) ch client n s).state.peers client.serviceName
        = [{ id := 0, hostPort := ch.hostPort }]
    ∧ (eventsSince s (pingLoop env (Transport.oracle f) ch client n s)).filterMap Event.callPeer?
        = List.replicate n { id := 0, hostPort := ch.hostPort } := by
  obtain ⟨m, rfl⟩ : ∃ m, n = m + 1 := ⟨n - 1, by omega⟩
  have h1 : (roundState env f ch client s).peers client.serviceName
      = [{ id := 0, hostPort := ch.hostPort }] := by
    rw [roundState_peers, h0, PeerSet.Add_nil]
  obtain ⟨ihp, ihc⟩ := pingLoop_peers_steady env f ch client m _ h1
  refine ⟨by rw [pingLoop_round]; exact ihp, ?_⟩
  rw [eventsSince_pingLoop]
  simp only [loopEvents, List.filterMap_append, List.filterMap_cons, callPeers_pingerEvents,
    Event.callPeer?, ihc, pingerPeer, h0, PeerSet.Add_nil, List.replicate_succ]
  rfl

/-- C8 at a concrete input: three rounds from the start state. -/
theorem pingLoop_single_peer_witness :
    (pingLoop demoEnv (Transport.oracle echoOracle) demoServer demoClient 3 St.start).state.peers
        demoClient.serviceName = [{ id := 0, hostPort := demoServer.hostPort }]
    ∧ (eventsSince St.start
        (pingLoop demoEnv (Transport.oracle echoOracle) demoServer demoClient 3 St.start)).filterMap
          Event.callPeer?
        = List.replicate 3 { id := 0, hostPort := demoServer.hostPort } :=
  pingLoop_single_peer demoEnv echoOracle demoServer demoClient 3 St.start (by decide) rfl

/-- C9: every run of `pinger` issues exactly one outbound call; in every initial
part of the events of any number of rounds of the loop, between two consecutive
calls (no call in between) lie exactly one return, that of the first call, and
after it exactly one sleep, of ten seconds; and at every point the calls issued
exceed the calls returned by at most one. -/
theorem pingLoop_sequential (env : Env) (f : Oracle) (ch client : Channel) (n : Nat) (s : St) :
    (∀ s1, (eventsSince s1 (pinger env (Transport.oracle f) ch client s1)).countP Event.isCall = 1)
    ∧ (∀ t, t <+: eventsSince s (pingLoop env (Transport.oracle f) ch client n s) →
        ∀ (a mid b : List Event) (ctx : Context) (p : Peer) (sv m : String) (arg : Ping) (c2 : Event),
          t = a ++ Event.call ctx p sv m arg :: (mid ++ c2 :: b) →
          (∀ e ∈ mid, e.isCall = false) → c2.isCall = true →
          ∃ err, mid.filter Event.isReturnOrSleep
            = [Event.callReturn ctx err, Event.sleep (10 * Second)])
    ∧ (∀ t, t <+: eventsSince s (pingLoop env (Transport.oracle f) ch client n s) →
        t.countP Event.isReturn ≤ t.countP Event.isCall
        ∧ t.countP Event.isCall ≤ t.countP Event.isReturn + 1) := by
  refine ⟨?_, ?_, ?_⟩
  · intro s1
    rw [eventsSince_pinger]
    exact countP_isCall_pingerEvents env f ch client s1
  · rw [eventsSince_pingLoop]
    rintro t ⟨r, hr⟩ a mid b ctx p sv m arg c2 rfl hmid hc2
    refine loopEvents_between_calls env f ch client n s a mid (b ++ r) ctx p sv m arg c2 ?_ hmid hc2
    rw [← hr]
    simp
  · rw [eventsSince_pingLoop]
    intro t ht
    exact inFlightOk_loopEvents env f ch client n s t ht

/-- C9 at a concrete input: two rounds, cut right after the second call is
issued; between the two calls lie the return of the first and one sleep. -/
theorem pingLoop_sequential_witness :
    ∃ err,
      [ Event.callReturn { id := 0, timeout := Second * 10 } none,
        Event.log { level := .Info, fields := [], msg := "recv pong: 'Mon Jan 2'" },
        Event.cancel { id := 0, timeout := Second * 10 },
        Event.sleep (10 * Second),
        Event.newContext { id := 1, timeout := Second * 10 },
        Event.log { level := .Info, fields := [], msg := "send ping: 'Mon Jan 2'" } ].filter
          Event.isReturnOrSleep
        = [Event.callReturn { id := 0, timeout := Second * 10 } err, Event.sleep (10 * Second)] := by
  refine (pingLoop_sequential demoEnv echoOracle demoServer demoClient 2 St.start).2.1
    ([ Event.newContext { id := 0, timeout := Second * 10 },
       Event.log { level := .Info, fields := [], msg := "send ping: 'Mon Jan 2'" } ]
      ++ Event.call { id := 0, timeout := Second * 10 } { id := 0, hostPort := "127.0.0.1:10500" }
          "PingService" "ping" { Message := "Mon Jan 2" }
        :: (_ ++ Event.call { id := 1, timeout := Second * 10 }
                  { id := 0, hostPort := "127.0.0.1:10500" } "PingService" "ping"
                  { Message := "Mon Jan 2" } :: []))
    ⟨[ Event.callReturn { id := 1, timeout := Second * 10 } none,
       Event.log { level := .Info, fields := [], msg := "recv pong: 'Mon Jan 2'" },
       Event.cancel { id := 1, timeout := Second * 10 },
       Event.sleep (10 * Second) ], ?_⟩
    _ _ _ _ _ _ _ _ _ rfl ?_ rfl
  · rw [eventsSince_pingLoop]
    simp [loopEvents, pingerEvents, roundState, pingerState, pingerCtx, pingerPeer, pingerOutcome,
      echoOracle, errorLog, demoEnv, demoServer, demoClient, PeerSet.Add, St.start]
  · simp [Event.isCall]

/-- C10: on every run of `pinger`, whatever the outcome of the call, exactly one
of its events is a log line starting with `recv pong`, and it carries the message
of the response variable after the call; when the call fails with `e` and leaves
the response variable untouched, the log lines of the run are the `send ping`
line, the Error line for `e` and then `recv pong: ''`. -/
theorem pinger_recv_pong_always (env : Env) (f : Oracle) (ch client : Channel) (s : St) :
    (eventsSince s (pinger env (Transport.oracle f) ch client s)).filter isRecvPong
      = [Event.log { level := .Info, fields := [],
                     msg := "recv pong: '" ++ (pingerOutcome env f ch client s).1.Message ++ "'" }]
    ∧ ∀ e : GoError, pingerOutcome env f ch client s = ({ Message := "" }, some e) →
        logsOf (eventsSince s (pinger env (Transport.oracle f) ch client s))
          = [ { level := .Info, fields := [], msg := "send ping: '" ++ env.now s.clock ++ "'" },
              { level := .Error, fields := [ErrField e], msg := "json.Call failed." },
              { level := .Info, fields := [], msg := "recv pong: ''" } ] := by
  rw [eventsSince_pinger]
  constructor
  · cases h : (pingerOutcome env f ch client s).2 <;>
      simp [pingerEvents, h, errorLog, isRecvPong, List.isPrefixOf]
  · intro e h
    simp [pingerEvents, h, errorLog, logsOf]

/-- C10 at a concrete input: the call times out and `recv pong: ''` is logged. -/
theorem pinger_recv_pong_always_witness :
    logsOf (eventsSince St.start
        (pinger demoEnv (Transport.oracle timeoutOracle) demoServer demoClient St.start))
      = [ { level := .Info, fields := [], msg := "send ping: 'Mon Jan 2'" },
          { level := .Error, fields := [ErrField { text := "timeout" }], msg := "json.Call failed." },
          { level := .Info, fields := [], msg := "recv pong: ''" } ] :=
  (pinger_recv_pong_always demoEnv timeoutOracle demoServer demoClient St.start).2
    { text := "timeout" } (by decide)

end PingExample
